import Mathlib

/-!
Verification of the ml_service core: the request router
(`app/routes/semantic_search.py`) and the model lifecycle stub
(`app/services/model_manager.py`), shallowly embedded as pure Lean
functions and state transitions.
-/

/-! ## String primitives

Models of the two Python string operations the router uses. -/

/-- Model of Python `str.lower()`, restricted to the Basic Latin range
(the only case-sensitive characters occurring in the suffix table):
each character in `A`-`Z` is mapped to its lowercase counterpart,
every other character is left unchanged (`Char.toLower` is exactly this map). -/
def strLower (s : String) : String := ⟨s.data.map Char.toLower⟩

/-- Model of Python `s.endswith(suffix)` for a single string suffix:
true iff `suffix` is a suffix of `s`. -/
def strEndsWith (s suffix : String) : Bool := suffix.data.isSuffixOf s.data

/-- Model of Python `s.endswith(t)` where `t` is a tuple of strings:
true iff `s` ends with at least one element of the tuple. -/
def endsWithAny (s : String) (suffixes : List String) : Bool :=
  suffixes.any (fun suf => strEndsWith s suf)

/-! ## Request and response records (pydantic models in the source) -/

/-- `FileData` from `semantic_search.py`. -/
structure FileData where
  id : String
  name : String
  description : Option String := none

/-- `SearchRequest` from `semantic_search.py`. `threshold` and `top_k`
are optional with pydantic defaults `0.3` and `10`. -/
structure SearchRequest where
  query : String
  files : List FileData
  threshold : Option Float := some 0.3
  top_k : Option Int := some 10

/-- `GenerateEmbeddingRequest` from `semantic_search.py`. -/
structure GenerateEmbeddingRequest where
  text : String

/-- `GenerateTagsRequest` from `semantic_search.py`. -/
structure GenerateTagsRequest where
  filename : String
  content_preview : Option String := none

/-- The data of a raised fastapi `HTTPException`: a status code and a
detail string. -/
structure HTTPException where
  status_code : Nat
  detail : String
deriving DecidableEq

/-- The body `{"tags": [...]}` returned by the generate-tags endpoint. -/
structure TagsResult where
  tags : List String
deriving DecidableEq

/-! ## The three route handlers -/

/-- Handler of `POST /search` (`semantic_search` in the source): it
unconditionally raises `HTTPException(503, ...)`, modelled as an
`Except.error` result. -/
def semantic_search (_request : SearchRequest) : Except HTTPException Unit :=
  .error { status_code := 503,
           detail := "Semantic search is disabled (memory optimization for 512MB limit). Using keyword search instead." }

/-- Handler of `POST /generate-embedding` (`generate_embedding` in the
source): it unconditionally raises `HTTPException(503, ...)`. -/
def generate_embedding (_request : GenerateEmbeddingRequest) : Except HTTPException Unit :=
  .error { status_code := 503,
           detail := "Embedding generation is disabled (memory optimization for 512MB limit)." }

/-- The tag computation of the `generate_tags` handler: lowercase the
filename, then walk the if/elif chain of extension checks; each branch
appends its tags to the initially empty list, the final `else` appends
`"other"`. The branch bodies are written as the list literals the
appends produce. -/
def generate_tags_tags (filename0 : String) : List String :=
  let filename := strLower filename0
  if endsWithAny filename [".pdf"] then
    ["document"]
  else if endsWithAny filename [".doc", ".docx"] then
    ["document", "word"]
  else if endsWithAny filename [".xls", ".xlsx", ".csv"] then
    ["spreadsheet", "data"]
  else if endsWithAny filename [".ppt", ".pptx"] then
    ["presentation"]
  else if endsWithAny filename [".jpg", ".jpeg", ".png", ".gif", ".webp", ".bmp"] then
    ["image"]
  else if endsWithAny filename [".mp4", ".avi", ".mov", ".mkv"] then
    ["video"]
  else if endsWithAny filename [".mp3", ".wav", ".ogg", ".flac"] then
    ["audio"]
  else if endsWithAny filename [".zip", ".rar", ".7z", ".tar", ".gz"] then
    ["archive"]
  else if endsWithAny filename [".py", ".js", ".ts", ".java", ".cpp", ".c", ".h"] then
    ["code", "technical"]
  else if endsWithAny filename [".txt", ".md"] then
    ["text"]
  else if endsWithAny filename [".json", ".xml", ".yaml", ".yml"] then
    ["data", "technical"]
  else
    ["other"]

/-- Handler of `POST /generate-tags` (`generate_tags` in the source):
returns `{"tags": tags}` computed from the request's filename alone. -/
def generate_tags (request : GenerateTagsRequest) : TagsResult :=
  { tags := generate_tags_tags request.filename }

/-! ## Spec-side table of suffix rules

A second definition of the tag computation following the spec's words:
an ordered list of (suffix group, emitted tags) rules evaluated
first-match-wins, falling through to `other`. Used to state the
refinement claim against `generate_tags_tags`. -/

/-- The suffix table of spec section 4.1, in its row order. -/
def tagRules : List (List String × List String) :=
  [ ([".pdf"], ["document"]),
    ([".doc", ".docx"], ["document", "word"]),
    ([".xls", ".xlsx", ".csv"], ["spreadsheet", "data"]),
    ([".ppt", ".pptx"], ["presentation"]),
    ([".jpg", ".jpeg", ".png", ".gif", ".webp", ".bmp"], ["image"]),
    ([".mp4", ".avi", ".mov", ".mkv"], ["video"]),
    ([".mp3", ".wav", ".ogg", ".flac"], ["audio"]),
    ([".zip", ".rar", ".7z", ".tar", ".gz"], ["archive"]),
    ([".py", ".js", ".ts", ".java", ".cpp", ".c", ".h"], ["code", "technical"]),
    ([".txt", ".md"], ["text"]),
    ([".json", ".xml", ".yaml", ".yml"], ["data", "technical"]) ]

/-- First-match-wins evaluation of an ordered rule list: the first group
containing a suffix of the filename determines the entire result, with
no accumulation across groups; if no group matches the result is
`["other"]`. -/
def applyTagRules : List (List String × List String) → String → List String
  | [], _ => ["other"]
  | rule :: rest, filename =>
    if rule.1.any (fun suf => strEndsWith filename suf) then rule.2
    else applyTagRules rest filename

/-- The spec's description of the generate-tags computation: lowercase
the filename, then evaluate the rule table first-match-wins. -/
def generate_tags_spec (filename : String) : List String :=
  applyTagRules tagRules (strLower filename)

/-- Every suffix appearing in some group of the table, in table order. -/
def allTagSuffixes : List String :=
  [".pdf", ".doc", ".docx", ".xls", ".xlsx", ".csv", ".ppt", ".pptx",
   ".jpg", ".jpeg", ".png", ".gif", ".webp", ".bmp",
   ".mp4", ".avi", ".mov", ".mkv", ".mp3", ".wav", ".ogg", ".flac",
   ".zip", ".rar", ".7z", ".tar", ".gz",
   ".py", ".js", ".ts", ".java", ".cpp", ".c", ".h",
   ".txt", ".md", ".json", ".xml", ".yaml", ".yml"]

/-- The fixed vocabulary of tags the handler can emit. -/
def tagVocabulary : List String :=
  ["document", "word", "spreadsheet", "data", "presentation", "image",
   "video", "audio", "archive", "code", "technical", "text", "other"]

/-! ## The model lifecycle stub (`model_manager.py`) -/

/-- The state fields of a `ModelManager` instance. The two model slots
hold no value in this design, so their element type is `Unit`. -/
structure ModelManager where
  current_model : Option String
  semantic_model : Option Unit
  pii_model : Option Unit
  is_loaded : Bool
deriving DecidableEq

/-- `ModelManager.__init__`: sets `current_model = None`, both model
slots to `None` and `is_loaded = True` unconditionally; `init_quick`
only suppresses a diagnostic print and changes no state. -/
def ModelManager.init (init_quick : Bool) : ModelManager :=
  let _ := init_quick
  { current_model := none, semantic_model := none, pii_model := none,
    is_loaded := true }

/-- `ModelManager._unload_all_models`: drop each model slot that holds a
value, run `gc.collect()` (no state effect), and clear
`current_model`. -/
def ModelManager.unload_all_models (m : ModelManager) : ModelManager :=
  let m1 := if m.semantic_model.isSome then { m with semantic_model := none } else m
  let m2 := if m1.pii_model.isSome then { m1 with pii_model := none } else m1
  { m2 with current_model := none }

/-- `ModelManager.get_semantic_model`: prints two diagnostics and
returns `None`; the state is untouched. -/
def ModelManager.get_semantic_model (m : ModelManager) : Option Unit × ModelManager :=
  (none, m)

/-- `ModelManager.get_pii_model`: prints two diagnostics and returns
`None`; the state is untouched. -/
def ModelManager.get_pii_model (m : ModelManager) : Option Unit × ModelManager :=
  (none, m)

/-- `ModelManager.load`: sets `is_loaded = True` and prints; nothing
else happens. -/
def ModelManager.load (m : ModelManager) : ModelManager :=
  { m with is_loaded := true }

/-- `ModelManager.cleanup`: prints, calls `_unload_all_models`, runs
`gc.collect()` (no state effect), prints again. -/
def ModelManager.cleanup (m : ModelManager) : ModelManager :=
  m.unload_all_models

/-- The operations a client can perform on a constructed manager. -/
inductive MMOp where
  | load
  | cleanup
  | get_semantic_model
  | get_pii_model
deriving DecidableEq

/-- State transition of one operation (for the accessors, the state they
return alongside the value). -/
def MMOp.apply (m : ModelManager) : MMOp → ModelManager
  | .load => m.load
  | .cleanup => m.cleanup
  | .get_semantic_model => m.get_semantic_model.2
  | .get_pii_model => m.get_pii_model.2

/-- Run a sequence of operations from a starting state. -/
def runOps (m : ModelManager) (ops : List MMOp) : ModelManager :=
  ops.foldl MMOp.apply m

/-! ## Helper lemmas -/

/-- The if/elif chain of the handler is definitionally the
first-match-wins evaluation of the rule table. Shared bridge between
the handler and the table view. -/
lemma generate_tags_tags_eq_applyTagRules (f : String) :
    generate_tags_tags f = applyTagRules tagRules (strLower f) := rfl

/-- First-match-wins evaluation only ever returns a rule's tag bundle or
the fallback `["other"]`. -/
lemma applyTagRules_mem (rules : List (List String × List String)) (f : String) :
    applyTagRules rules f ∈ rules.map Prod.snd ++ [["other"]] := by
  induction rules with
  | nil => simp [applyTagRules]
  | cons r rest ih =>
    simp only [applyTagRules]
    by_cases h : r.1.any (fun suf => strEndsWith f suf) = true
    · rw [if_pos h]
      simp
    · rw [if_neg h]
      simp only [List.map_cons, List.cons_append, List.mem_cons]
      exact Or.inr ih
  
/-- If no rule's suffix group matches, first-match-wins evaluation falls
through to `["other"]`. -/
lemma applyTagRules_no_match (rules : List (List String × List String)) (f : String)
    (h : ∀ r ∈ rules, r.1.any (fun suf => strEndsWith f suf) = false) :
    applyTagRules rules f = ["other"] := by
  induction rules with
  | nil => rfl
  | cons r rest ih =>
    simp only [applyTagRules]
    rw [if_neg (by simp [h r (List.mem_cons_self r rest)])]
    exact ih (fun r2 hr2 => h r2 (List.mem_cons_of_mem r hr2))

/-- Decoding a valid code point back to a natural number is the
identity. -/
lemma char_toNat_ofNat {n : Nat} (h : n.isValidChar) : (Char.ofNat n).toNat = n := by
  rw [Char.ofNat, dif_pos h]
  rfl

/-- Lowercasing a character twice is the same as doing it once. -/
lemma char_toLower_toLower (c : Char) : c.toLower.toLower = c.toLower := by
  simp only [Char.toLower]
  by_cases h : c.toNat ≥ 65 ∧ c.toNat ≤ 90
  · rw [if_pos h]
    have hv : (c.toNat + 32).isValidChar := Or.inl (by omega)
    rw [char_toNat_ofNat hv, if_neg (by omega)]
  · rw [if_neg h, if_neg h]

/-- The model of Python `str.lower()` is idempotent. -/
lemma strLower_strLower (s : String) : strLower (strLower s) = strLower s := by
  have h : Char.toLower ∘ Char.toLower = Char.toLower := funext char_toLower_toLower
  simp [strLower, List.map_map, h]

/-- `cleanup` always produces the cleared state, touching nothing but
the reference fields. -/
lemma ModelManager.cleanup_eq (m : ModelManager) :
    m.cleanup = { current_model := none, semantic_model := none,
                  pii_model := none, is_loaded := m.is_loaded } := by
  cases m with
  | mk c s p l => cases s <;> cases p <;> rfl

/-- Running any operation sequence from a state with `is_loaded = true`
ends in a state with `is_loaded = true`. -/
lemma runOps_preserves_is_loaded (ops : List MMOp) :
    ∀ m : ModelManager, m.is_loaded = true → (runOps m ops).is_loaded = true := by
  induction ops with
  | nil => exact fun _ h => h
  | cons op rest ih =>
    intro m h
    have hstep : (MMOp.apply m op).is_loaded = true := by
      cases op
      · rfl
      · rw [show MMOp.apply m .cleanup = m.cleanup from rfl, ModelManager.cleanup_eq]
        exact h
      · exact h
      · exact h
    exact ih _ hstep

/-! ## Claims -/

/-- Claim C1: for every filename, `generate_tags` lowercases it and
evaluates the fixed suffix groups in the table's order; the first group
containing a suffix of the lowercased filename determines the entire
tag list (that group's tags in table order, no accumulation across
groups), and `["other"]` results when no group matches — i.e. the
handler's if/elif chain coincides with first-match-wins evaluation of
the spec's rule table. -/
theorem generate_tags_refines_rule_table :
    ∀ filename : String, generate_tags_tags filename = generate_tags_spec filename :=
  fun _ => rfl

/-- Claim C2: for every `SearchRequest`, whatever its `query`, `files`
(including empty), `threshold` (including out-of-range) and `top_k`,
the search handler fails with status 503 and the exact disabled-search
detail string; being a constant function it branches on nothing and has
no side effects. -/
theorem semantic_search_always_503 :
    ∀ request : SearchRequest,
      semantic_search request =
        Except.error
          { status_code := 503,
            detail := "Semantic search is disabled (memory optimization for 512MB limit). Using keyword search instead." } :=
  fun _ => rfl

/-- Claim C3: for every `GenerateEmbeddingRequest`, whatever its `text`,
the embedding handler fails with status 503 and the exact
disabled-embedding detail string, with no side effects. -/
theorem generate_embedding_always_503 :
    ∀ request : GenerateEmbeddingRequest,
      generate_embedding request =
        Except.error
          { status_code := 503,
            detail := "Embedding generation is disabled (memory optimization for 512MB limit)." } :=
  fun _ => rfl

/-- Claim C4: tag generation is total with no error path: every
filename (empty or extension-less included) yields a non-empty tag
list, and a filename ending in none of the table's suffixes yields
exactly `["other"]`. -/
theorem generate_tags_total_nonempty :
    ∀ filename : String,
      generate_tags_tags filename ≠ [] ∧
      (endsWithAny (strLower filename) allTagSuffixes = false →
        generate_tags_tags filename = ["other"]) := by
  intro f
  constructor
  · have h := applyTagRules_mem tagRules (strLower f)
    rw [← generate_tags_tags_eq_applyTagRules] at h
    simp only [tagRules, List.map_cons, List.map_nil, List.cons_append,
      List.nil_append, List.mem_cons, List.not_mem_nil, or_false] at h
    rcases h with h|h|h|h|h|h|h|h|h|h|h|h <;> simp [h]
  · intro h
    rw [generate_tags_tags_eq_applyTagRules]
    apply applyTagRules_no_match
    intro r hr
    rw [List.any_eq_false]
    intro suf hsuf
    simp only [endsWithAny] at h
    have hall := List.any_eq_false.mp h
    have hsub : ∀ r2 ∈ tagRules, ∀ s ∈ r2.1, s ∈ allTagSuffixes := by decide
    exact hall suf (hsub r hr suf hsuf)

/-- Witness for C4 at the extension-less filename `"notes"`. -/
theorem generate_tags_total_nonempty_witness :
    generate_tags_tags "notes" ≠ [] ∧ generate_tags_tags "notes" = ["other"] :=
  ⟨(generate_tags_total_nonempty "notes").1,
   (generate_tags_total_nonempty "notes").2 (by decide)⟩

/-- Claim C5: tag generation is case-insensitive in the filename: every
filename yields the same tags as its lowercased form, and in particular
`"report.PDF"` yields `["document"]`. -/
theorem generate_tags_case_insensitive :
    (∀ filename : String,
      generate_tags_tags filename = generate_tags_tags (strLower filename)) ∧
    generate_tags { filename := "report.PDF" } = { tags := ["document"] } := by
  constructor
  · intro f
    rw [generate_tags_tags_eq_applyTagRules, generate_tags_tags_eq_applyTagRules,
      strLower_strLower]
  · decide

/-- Claim C6: tag generation is deterministic and independent of
`content_preview`: two requests with the same filename yield identical
tag lists, whatever their previews. -/
theorem generate_tags_ignores_content_preview :
    ∀ r1 r2 : GenerateTagsRequest, r1.filename = r2.filename →
      generate_tags r1 = generate_tags r2 := by
  intro r1 r2 h
  simp [generate_tags, h]

/-- Witness for C6: same filename, absent vs present preview. -/
theorem generate_tags_ignores_content_preview_witness :
    generate_tags { filename := "a.pdf", content_preview := none } =
    generate_tags { filename := "a.pdf", content_preview := some "unused preview text" } :=
  generate_tags_ignores_content_preview _ _ rfl

/-- Claim C7: the invariant `is_loaded = true` holds after construction
with either value of `init_quick` and is preserved by every sequence of
`load`, `cleanup`, `get_semantic_model` and `get_pii_model` calls. -/
theorem model_manager_always_loaded :
    ∀ (init_quick : Bool) (ops : List MMOp),
      (runOps (ModelManager.init init_quick) ops).is_loaded = true :=
  fun q ops => runOps_preserves_is_loaded ops (ModelManager.init q) rfl

/-- Claim C8: both model accessors always return the absent-model
marker and hand back the state unchanged, whatever the manager's prior
history left it in. -/
theorem accessors_return_none_without_mutation :
    ∀ m : ModelManager,
      m.get_semantic_model = (none, m) ∧ m.get_pii_model = (none, m) :=
  fun _ => ⟨rfl, rfl⟩

/-- Claim C9: `cleanup` is idempotent and total: a second `cleanup`
changes nothing, and the cleaned state has `current_model`, the
semantic slot and the PII slot all absent. -/
theorem cleanup_idempotent :
    ∀ m : ModelManager,
      m.cleanup.cleanup = m.cleanup ∧
      m.cleanup.current_model = none ∧
      m.cleanup.semantic_model = none ∧
      m.cleanup.pii_model = none := by
  intro m
  rw [ModelManager.cleanup_eq m]
  refine ⟨?_, rfl, rfl, rfl⟩
  rw [ModelManager.cleanup_eq]

/-- Claim C10: every tag list the handler returns has one or two
elements, holds no duplicates, and draws all its elements from the
fixed vocabulary. -/
theorem generate_tags_shape_and_vocabulary :
    ∀ filename : String,
      ((generate_tags_tags filename).length = 1 ∨
        (generate_tags_tags filename).length = 2) ∧
      (generate_tags_tags filename).Nodup ∧
      ∀ t ∈ generate_tags_tags filename, t ∈ tagVocabulary := by
  intro f
  have h := applyTagRules_mem tagRules (strLower f)
  rw [← generate_tags_tags_eq_applyTagRules] at h
  simp only [tagRules, List.map_cons, List.map_nil, List.cons_append,
    List.nil_append, List.mem_cons, List.not_mem_nil, or_false] at h
  rcases h with h|h|h|h|h|h|h|h|h|h|h|h <;> rw [h] <;>
    exact ⟨by decide, by decide, by decide⟩
